import Mathlib

/-!
Shallow embedding of `src/nmdb.py` (the `nmdb_to_csv` script): a downloader
that builds a query URL from date/time fields, fetches an ASCII body, parses
it line by line through a chain of four row formats, assembles a sorted
table and writes it to CSV.

Strings are modelled as `List Char`.  Python library functions used by the
script (`str.strip`, `str.split`, `str.splitlines`, the `re` patterns of the
script, `urllib.parse.parse_qs`/`urlencode`, and the narrow slices of
`pandas` behaviour the script relies on) are modelled here restricted to the
character ranges this program works with; each model notes its scope.
-/

namespace Nmdb

/-- Whitespace recognised by Python's `str.strip`/`str.split` (the ASCII and
Latin-1 part of `str.isspace`; the rarely used astral Unicode space code
points are outside the scope of this model). -/
def pyIsSpace (c : Char) : Bool :=
  c == ' ' || c == '\t' || c == '\n' || c == '\r' || c == '\x0b' || c == '\x0c' ||
    c == '\x1c' || c == '\x1d' || c == '\x1e' || c == '\x1f' || c == '\x85' || c == '\xa0'

/-- Model of Python `str.strip()` with no argument: remove leading and
trailing whitespace. -/
def pyStrip (s : List Char) : List Char :=
  ((s.dropWhile pyIsSpace).reverse.dropWhile pyIsSpace).reverse

/-- Helper for `pySplit`: `acc` holds the characters of the token currently
being read, in reverse order. -/
def pySplitAux : List Char → List Char → List (List Char)
  | acc, [] => if acc.isEmpty then [] else [acc.reverse]
  | acc, c :: rest =>
    if pyIsSpace c then
      if acc.isEmpty then pySplitAux [] rest else acc.reverse :: pySplitAux [] rest
    else pySplitAux (c :: acc) rest

/-- Model of Python `str.split()` with no argument: split on runs of
whitespace, returning no empty tokens. -/
def pySplit (s : List Char) : List (List Char) :=
  pySplitAux [] s

/-- Line terminators recognised by Python `str.splitlines` (the BMP set;
`\r\n` pairs are handled separately in `pySplitlinesAux`). -/
def isLineBreak (c : Char) : Bool :=
  c == '\n' || c == '\r' || c == '\x0b' || c == '\x0c' || c == '\x1c' ||
    c == '\x1d' || c == '\x1e' || c == '\x85' || c == '\u2028' || c == '\u2029'

/-- Helper for `pySplitlines`; `acc` holds the current line reversed. -/
def pySplitlinesAux : List Char → List Char → List (List Char)
  | acc, [] => if acc.isEmpty then [] else [acc.reverse]
  | acc, '\r' :: '\n' :: rest => acc.reverse :: pySplitlinesAux [] rest
  | acc, c :: rest =>
    if isLineBreak c then acc.reverse :: pySplitlinesAux [] rest
    else pySplitlinesAux (c :: acc) rest

/-- Model of Python `str.splitlines()`. -/
def pySplitlines (s : List Char) : List (List Char) :=
  pySplitlinesAux [] s

/-- Strip one leading `+` or `-` sign, as the regex `[+-]?` does. -/
def stripSign (s : List Char) : List Char :=
  match s with
  | c :: t => if c = '+' ∨ c = '-' then t else s
  | [] => s

/-- Consume one or more leading decimal digits (`\d+`, greedy); `none` when
the first character is not a digit, otherwise the rest of the string. -/
def takeDigits1 : List Char → Option (List Char)
  | [] => none
  | c :: rest => if c.isDigit then some (rest.dropWhile Char.isDigit) else none

/-- The exponent tail `([eE][+-]?\d+)?$` of `NUM_RE`, applied after the
mantissa: accepts the empty rest or an exponent that ends the string. -/
def expPart : List Char → Bool
  | [] => true
  | c :: r =>
    if c = 'e' ∨ c = 'E' then
      match takeDigits1 (stripSign r) with
      | some [] => true
      | _ => false
    else false

/-- The `(\.\d+)?` group followed by `expPart`, applied to what remains of
the string after the integer part of the mantissa. -/
def fracExpPart : List Char → Bool
  | [] => expPart []
  | b :: r =>
    if b = '.' then
      match takeDigits1 r with
      | none => false
      | some s2 => expPart s2
    else expPart (b :: r)

/-- Full-string match of the body of `NUM_RE = ^[+-]?\d+(\.\d+)?([eE][+-]?\d+)?$`
(the anchors are handled by `matchDollar`/`numSearch`). -/
def numBody (s : List Char) : Bool :=
  match takeDigits1 (stripSign s) with
  | none => false
  | some s1 => fracExpPart s1

/-- Full-string match of the body of `DATE_RE = ^\d{4}-\d{2}-\d{2}$`. -/
def dateBody : List Char → Bool
  | [y1, y2, y3, y4, '-', m1, m2, '-', d1, d2] =>
    y1.isDigit && y2.isDigit && y3.isDigit && y4.isDigit &&
      m1.isDigit && m2.isDigit && d1.isDigit && d2.isDigit
  | _ => false

/-- Full-string match of the body of `TIME_RE = ^\d{2}:\d{2}$`. -/
def timeBody : List Char → Bool
  | [h1, h2, ':', n1, n2] => h1.isDigit && h2.isDigit && n1.isDigit && n2.isDigit
  | _ => false

/-- Full-string match of the body of `^\d{2}:\d{2}(:\d{2})?$` (the token-1
pattern of row format A). -/
def timeSecBody : List Char → Bool
  | [h1, h2, ':', n1, n2] => h1.isDigit && h2.isDigit && n1.isDigit && n2.isDigit
  | [h1, h2, ':', n1, n2, ':', s1, s2] =>
    h1.isDigit && h2.isDigit && n1.isDigit && n2.isDigit && s1.isDigit && s2.isDigit
  | _ => false

/-- Python `re.match` of a pattern of the form `^body$`: the `$` anchor also
matches just before a single final newline. -/
def matchDollar (body : List Char → Bool) (s : List Char) : Bool :=
  body s ||
    (match s.getLast? with
     | some '\n' => body s.dropLast
     | _ => false)

/-- `DATE_RE.match` on a whole string. -/
def dateMatch (s : List Char) : Bool := matchDollar dateBody s

/-- `TIME_RE.match` on a whole string. -/
def timeMatch (s : List Char) : Bool := matchDollar timeBody s

/-- `re.match(r'^\d{2}:\d{2}(:\d{2})?$', ·)` on a whole string. -/
def timeSecMatch (s : List Char) : Bool := matchDollar timeSecBody s

/-- `NUM_RE.match` on a whole string. -/
def numMatch (s : List Char) : Bool := matchDollar numBody s

/-- `NUM_RE.search(s)` returning `group(0)`.  Because `NUM_RE` is anchored
with `^` and `$`, a search can only succeed at position 0 and must reach the
end of the string (or the position just before a single final newline). -/
def numSearch (s : List Char) : Option (List Char) :=
  if numBody s then some s
  else
    match s.getLast? with
    | some '\n' => if numBody s.dropLast then some s.dropLast else none
    | _ => none

/-- Try the pattern `\d{4}-\d{2}-\d{2}[T ]\d{2}:\d{2}(:\d{2})?` anchored at
the start of `s`; the optional seconds group is greedy.  Returns the matched
text. -/
def dtAt : List Char → Option (List Char)
  | y1 :: y2 :: y3 :: y4 :: '-' :: m1 :: m2 :: '-' :: d1 :: d2 :: sep :: h1 :: h2 :: ':' :: n1 :: n2 :: rest =>
    if y1.isDigit ∧ y2.isDigit ∧ y3.isDigit ∧ y4.isDigit ∧ m1.isDigit ∧ m2.isDigit ∧
        d1.isDigit ∧ d2.isDigit ∧ (sep = 'T' ∨ sep = ' ') ∧ h1.isDigit ∧ h2.isDigit ∧
        n1.isDigit ∧ n2.isDigit then
      match rest with
      | ':' :: s1 :: s2 :: _ =>
        if s1.isDigit ∧ s2.isDigit then
          some [y1, y2, y3, y4, '-', m1, m2, '-', d1, d2, sep, h1, h2, ':', n1, n2, ':', s1, s2]
        else some [y1, y2, y3, y4, '-', m1, m2, '-', d1, d2, sep, h1, h2, ':', n1, n2]
      | _ => some [y1, y2, y3, y4, '-', m1, m2, '-', d1, d2, sep, h1, h2, ':', n1, n2]
    else none
  | _ => none

/-- `re.search(r'(\d{4}-\d{2}-\d{2}[T ]\d{2}:\d{2}(:\d{2})?)', s)` returning
`group(1)`: leftmost match wins. -/
def dtSearch : List Char → Option (List Char)
  | [] => none
  | c :: rest =>
    match dtAt (c :: rest) with
    | some m => some m
    | none => dtSearch rest

/-- `' '.join(tokens)`. -/
def joinSpace (ts : List (List Char)) : List Char :=
  List.intercalate [' '] ts

/-- `m.group(1).replace('T', ' ')`. -/
def replaceTBySpace (s : List Char) : List Char :=
  s.map fun c => if c = 'T' then ' ' else c

/-- One iteration of the loop body of `_parse_ascii`: strip the line, skip
blanks and `#` comments, then try formats A, B, C, D in order.  `Except Unit`
models the possible `IndexError` of the unguarded `tokens[-1]` access in the
format-C test (`getLast?` returning `none`); `.ok none` is a silently skipped
line, `.ok (some (dt, cnt))` an emitted raw row. -/
def parseLine (ln : List Char) : Except Unit (Option (List Char × List Char)) :=
  let line := pyStrip ln
  if line = [] then .ok none
  else if line.head? = some '#' then .ok none
  else
    let tokens := pySplit line
    if 3 ≤ tokens.length ∧ dateMatch (tokens.getD 0 []) ∧ timeSecMatch (tokens.getD 1 []) then
      .ok (some (tokens.getD 0 [] ++ ' ' :: tokens.getD 1 [], tokens.getD 2 []))
    else if 2 ≤ tokens.length ∧ dateMatch (tokens.getD 0 []) ∧ numMatch (tokens.getD 1 []) then
      .ok (some (tokens.getD 0 [], tokens.getD 1 []))
    else
      match tokens.getLast? with
      | none => .error ()
      | some last =>
        if numMatch last ∧ 2 ≤ tokens.length then
          .ok (some (joinSpace tokens.dropLast, last))
        else
          let joined := joinSpace tokens
          match dtSearch joined, numSearch joined with
          | some m, some n => .ok (some (replaceTBySpace m, n))
          | _, _ => .ok none

/-- The whole `for ln in text.splitlines()` loop of `_parse_ascii`,
collecting the emitted raw rows in input order. -/
def linesRows : List (List Char) → Except Unit (List (List Char × List Char))
  | [] => .ok []
  | ln :: rest =>
    match parseLine ln with
    | .error e => .error e
    | .ok none => linesRows rest
    | .ok (some r) =>
      match linesRows rest with
      | .error e => .error e
      | .ok rs => .ok (r :: rs)

/-- Encode a (year, month, day, hour, minute, second) tuple as a single
natural number, ordered lexicographically. -/
def encKey (y mo da h mi se : Nat) : Nat :=
  ((((y * 100 + mo) * 100 + da) * 100 + h) * 100 + mi) * 100 + se

/-- Numeric value of a two-digit pair. -/
def digits2 (a b : Char) : Nat :=
  (a.toNat - 48) * 10 + (b.toNat - 48)

/-- Numeric value of a four-digit year. -/
def digits4 (a b c d : Char) : Nat :=
  digits2 a b * 100 + digits2 c d

/-- Modelled from the documented behaviour of `pandas.to_datetime` with
`errors='coerce'`, restricted to the ISO-like strings this parser emits:
`YYYY-MM-DD`, `YYYY-MM-DD HH:MM` and `YYYY-MM-DD HH:MM:SS`, with basic range
validity; every other string is treated as unparseable (`NaT`, hence `none`).
The timestamp is abstracted to its lexicographic `encKey` code. -/
def toDatetimeKey : List Char → Option Nat
  | [y1, y2, y3, y4, '-', m1, m2, '-', d1, d2] =>
    if y1.isDigit ∧ y2.isDigit ∧ y3.isDigit ∧ y4.isDigit ∧ m1.isDigit ∧ m2.isDigit ∧
        d1.isDigit ∧ d2.isDigit ∧ 1 ≤ digits2 m1 m2 ∧ digits2 m1 m2 ≤ 12 ∧
        1 ≤ digits2 d1 d2 ∧ digits2 d1 d2 ≤ 31 then
      some (encKey (digits4 y1 y2 y3 y4) (digits2 m1 m2) (digits2 d1 d2) 0 0 0)
    else none
  | [y1, y2, y3, y4, '-', m1, m2, '-', d1, d2, ' ', h1, h2, ':', n1, n2] =>
    if y1.isDigit ∧ y2.isDigit ∧ y3.isDigit ∧ y4.isDigit ∧ m1.isDigit ∧ m2.isDigit ∧
        d1.isDigit ∧ d2.isDigit ∧ h1.isDigit ∧ h2.isDigit ∧ n1.isDigit ∧ n2.isDigit ∧
        1 ≤ digits2 m1 m2 ∧ digits2 m1 m2 ≤ 12 ∧ 1 ≤ digits2 d1 d2 ∧ digits2 d1 d2 ≤ 31 ∧
        digits2 h1 h2 ≤ 23 ∧ digits2 n1 n2 ≤ 59 then
      some (encKey (digits4 y1 y2 y3 y4) (digits2 m1 m2) (digits2 d1 d2)
        (digits2 h1 h2) (digits2 n1 n2) 0)
    else none
  | [y1, y2, y3, y4, '-', m1, m2, '-', d1, d2, ' ', h1, h2, ':', n1, n2, ':', s1, s2] =>
    if y1.isDigit ∧ y2.isDigit ∧ y3.isDigit ∧ y4.isDigit ∧ m1.isDigit ∧ m2.isDigit ∧
        d1.isDigit ∧ d2.isDigit ∧ h1.isDigit ∧ h2.isDigit ∧ n1.isDigit ∧ n2.isDigit ∧
        s1.isDigit ∧ s2.isDigit ∧ 1 ≤ digits2 m1 m2 ∧ digits2 m1 m2 ≤ 12 ∧
        1 ≤ digits2 d1 d2 ∧ digits2 d1 d2 ≤ 31 ∧ digits2 h1 h2 ≤ 23 ∧
        digits2 n1 n2 ≤ 59 ∧ digits2 s1 s2 ≤ 59 then
      some (encKey (digits4 y1 y2 y3 y4) (digits2 m1 m2) (digits2 d1 d2)
        (digits2 h1 h2) (digits2 n1 n2) (digits2 s1 s2))
    else none
  | _ => none

/-- Modelled from `pandas.to_numeric` with `errors='coerce'` on the numeric
literal strings this program can produce (optional sign, integer or decimal
mantissa, optional exponent, optional surrounding whitespace); everything
else coerces to `NaN`, hence `false`. -/
def toNumericOk (s : List Char) : Bool :=
  numBody (pyStrip s)

/-- A validated table row: the timestamp code and the raw count text (the
numeric value itself plays no role in the verified claims). -/
abbrev Row := Nat × List Char

/-- One row of the `dropna(subset=['datetime', 'count'])` step: keep the raw
row only when both the datetime and the count text parse. -/
def validateRow (r : List Char × List Char) : Option Row :=
  match toDatetimeKey r.1 with
  | none => none
  | some k => if toNumericOk r.2 then some (k, r.2) else none

/-- Insert one row into a key-sorted list of rows, used by `sortRows`. -/
def insertRow (r : Row) : List Row → List Row
  | [] => [r]
  | x :: xs => if r.1 < x.1 then r :: x :: xs else x :: insertRow r xs

/-- Sort rows ascending by the timestamp key, modelling
`df.sort_values('datetime')`.  The model is a deterministic comparison
sort; pandas' default `kind='quicksort'` guarantees the same multiset of
rows in non-decreasing key order but specifies nothing about the relative
order of rows with equal keys, so only key-order-invariant facts are proved
about it. -/
def sortRows : List Row → List Row
  | [] => []
  | r :: rs => insertRow r (sortRows rs)

/-- The DataFrame-assembly tail of `_parse_ascii`: validate, drop failures,
sort by timestamp. -/
def assemble (raws : List (List Char × List Char)) : List Row :=
  sortRows (raws.filterMap validateRow)

/-- The whole `_parse_ascii`: split into lines, run the per-line parser, then
assemble the table. -/
def parse_ascii (text : List Char) : Except Unit (List Row) :=
  match linesRows (pySplitlines text) with
  | .error e => .error e
  | .ok raws => .ok (assemble raws)

/-- Python `s.split(sep)` for a one-character separator: `""` gives `[""]`,
and empty fields are kept. -/
def splitSep (sep : Char) : List Char → List (List Char)
  | [] => [[]]
  | c :: rest =>
    if c = sep then [] :: splitSep sep rest
    else
      match splitSep sep rest with
      | [] => [[c]]
      | g :: gs => (c :: g) :: gs

/-- `s.lstrip('0') or '0'`: strip the leading zeros, falling back to `"0"`
when everything was stripped (the Python `or` treats `''` as falsy). -/
def lstrip0OrZero (s : List Char) : List Char :=
  let t := s.dropWhile fun c => c = '0'
  if t.isEmpty then ['0'] else t

/-- The `ValueError` message for a malformed date. -/
def dateMsg : List Char := "date debe tener formato YYYY-MM-DD".toList

/-- The `ValueError` message for a malformed time. -/
def timeMsg : List Char := "time debe tener formato HH:MM".toList

/-- `_date_time_to_query_parts`: validate against `DATE_RE`/`TIME_RE`
(raising `ValueError`, modelled as `.error`), split the date on `-` and the
time on `:`, and return `(day, month, year, hour, minute)` with leading
zeros stripped from all but the year.  The final wildcard models the
`ValueError` of a tuple unpacking of the wrong arity, which the validated
patterns make unreachable. -/
def date_time_to_query_parts (date_str time_str : List Char) :
    Except (List Char) (List Char × List Char × List Char × List Char × List Char) :=
  if dateMatch date_str then
    if timeMatch time_str then
      match splitSep '-' date_str, splitSep ':' time_str with
      | [y, m, d], [hh, mm] =>
        .ok (lstrip0OrZero d, lstrip0OrZero m, y, lstrip0OrZero hh, lstrip0OrZero mm)
      | _, _ => .error "unpack".toList
    else .error timeMsg
  else .error dateMsg

/-- Hexadecimal digit predicate of Python's `urllib.parse.unquote`. -/
def isHexDigitPy (c : Char) : Bool :=
  c.isDigit || ('a' ≤ c && c ≤ 'f') || ('A' ≤ c && c ≤ 'F')

/-- Value of a hexadecimal digit. -/
def hexVal (c : Char) : Nat :=
  if c.isDigit then c.toNat - 48
  else if 'a' ≤ c ∧ c ≤ 'f' then c.toNat - 87
  else c.toNat - 55

/-- The `+`-to-space step `nv.replace('+', ' ')` of `parse_qsl`. -/
def plusToSpace (s : List Char) : List Char :=
  s.map fun c => if c = '+' then ' ' else c

/-- Percent-decoding of `urllib.parse.unquote`, restricted to single-byte
(ASCII/Latin-1) escapes: a decoded byte `b` is rendered as the code point
`b` (multi-byte UTF-8 escape runs, absent from this program's URLs, are
outside the model's scope); a malformed escape is kept verbatim. -/
def pctDecode : List Char → List Char
  | [] => []
  | '%' :: h :: l :: rest =>
    if isHexDigitPy h && isHexDigitPy l then
      Char.ofNat (16 * hexVal h + hexVal l) :: pctDecode rest
    else '%' :: pctDecode (h :: l :: rest)
  | c :: rest => c :: pctDecode rest

/-- The decoding applied by `parse_qsl` to each name and value:
`unquote(nv.replace('+', ' '))`. -/
def qsUnquote (s : List Char) : List Char :=
  pctDecode (plusToSpace s)

/-- Split a field at its first `=`, as `name_value.split('=', 1)` unpacked
into two parts; `none` when the field contains no `=`. -/
def splitEq : List Char → Option (List Char × List Char)
  | [] => none
  | '=' :: rest => some ([], rest)
  | c :: rest =>
    match splitEq rest with
    | none => none
    | some (n, v) => some (c :: n, v)

/-- `urllib.parse.parse_qsl` with default arguments: split on `&`, skip
empty fields, fields without `=` and fields with an empty value
(`keep_blank_values=False`), and decode names and values. -/
def parse_qsl (q : List Char) : List (List Char × List Char) :=
  (splitSep '&' q).filterMap fun nv =>
    match splitEq nv with
    | none => none
    | some (n, v) => if v.isEmpty then none else some (qsUnquote n, qsUnquote v)

/-- Append one `(name, value)` pair to the insertion-ordered dictionary that
`parse_qs` builds: a new name goes to the end, an existing name gets the
value appended to its list. -/
def insertQsPair :
    List (List Char × List (List Char)) → List Char × List Char →
      List (List Char × List (List Char))
  | [], kv => [(kv.1, [kv.2])]
  | (k, vs) :: rest, kv =>
    if kv.1 = k then (k, vs ++ [kv.2]) :: rest else (k, vs) :: insertQsPair rest kv

/-- `urllib.parse.parse_qs`: group the `parse_qsl` pairs into an
insertion-ordered dictionary from names to value lists. -/
def parse_qs (q : List Char) : List (List Char × List (List Char)) :=
  (parse_qsl q).foldl insertQsPair []

/-- The characters `quote_plus` leaves unescaped: ASCII letters and digits
and `_.-~` (the default `safe=''`). -/
def alwaysSafe (c : Char) : Bool :=
  c.isAlphanum || c == '_' || c == '.' || c == '-' || c == '~'

/-- Upper-case hexadecimal digit, as `urllib.parse.quote` emits. -/
def hexDigitU (n : Nat) : Char :=
  if n < 10 then Char.ofNat (48 + n) else Char.ofNat (55 + n)

/-- UTF-8 encoding of one code point, used by `quote` for non-ASCII
characters. -/
def utf8Bytes (c : Char) : List Nat :=
  let n := c.toNat
  if n < 128 then [n]
  else if n < 2048 then [192 + n / 64, 128 + n % 64]
  else if n < 65536 then [224 + n / 4096, 128 + n / 64 % 64, 128 + n % 64]
  else [240 + n / 262144, 128 + n / 4096 % 64, 128 + n / 64 % 64, 128 + n % 64]

/-- Percent-escape of one byte. -/
def pctByte (b : Nat) : List Char :=
  ['%', hexDigitU (b / 16), hexDigitU (b % 16)]

/-- `urllib.parse.quote_plus` on one character. -/
def quotePlusChar (c : Char) : List Char :=
  if alwaysSafe c then [c]
  else if c = ' ' then ['+']
  else (utf8Bytes c).flatMap pctByte

/-- `urllib.parse.quote_plus` with default `safe=''`. -/
def quotePlus (s : List Char) : List Char :=
  s.flatMap quotePlusChar

/-- `urllib.parse.urlencode(qs, doseq=True)`: one `name=value` field per
value, in dictionary order, joined with `&`. -/
def urlencodeQs (d : List (List Char × List (List Char))) : List Char :=
  List.intercalate ['&'] (d.flatMap fun kv => kv.2.map fun v => quotePlus kv.1 ++ '=' :: quotePlus v)

/-- Dictionary assignment `qs[k] = v`: overwrite in place when the key
exists, append at the end otherwise. -/
def setKey :
    List (List Char × List (List Char)) → List Char → List (List Char) →
      List (List Char × List (List Char))
  | [], k, v => [(k, v)]
  | (k', v') :: rest, k, v =>
    if k = k' then (k', v) :: rest else (k', v') :: setKey rest k v

/-- The eleven dictionary assignments of `_build_ascii_url`, in source
order. -/
def overwriteParams (d : List (List Char × List (List Char)))
    (sD sM sY sH sMin eD eM eY eH eMin : List Char) :
    List (List Char × List (List Char)) :=
  setKey (setKey (setKey (setKey (setKey (setKey (setKey (setKey (setKey (setKey (setKey
    d "start_day".toList [sD]) "start_month".toList [sM]) "start_year".toList [sY])
    "start_hour".toList [sH]) "start_min".toList [sMin]) "end_day".toList [eD])
    "end_month".toList [eM]) "end_year".toList [eY]) "end_hour".toList [eH])
    "end_min".toList [eMin]) "output".toList ["ascii".toList]

/-- The query-string transformation of `_build_ascii_url`: parse the query,
compute both query-part tuples (propagating their `ValueError`s), overwrite
the eleven parameters and re-encode. -/
def buildQuery (q sd st ed et : List Char) : Except (List Char) (List Char) :=
  match date_time_to_query_parts sd st with
  | .error e => .error e
  | .ok (sD, sM, sY, sH, sMin) =>
    match date_time_to_query_parts ed et with
    | .error e => .error e
    | .ok (eD, eM, eY, eH, eMin) =>
      .ok (urlencodeQs (overwriteParams (parse_qs q) sD sM sY sH sMin eD eM eY eH eMin))

/-- Split at the first occurrence of `sep`: the part before it and, when the
separator occurs, the part after it. -/
def breakAt (sep : Char) : List Char → List Char × Option (List Char)
  | [] => ([], none)
  | c :: rest =>
    if c = sep then ([], some rest)
    else
      let p := breakAt sep rest
      (c :: p.1, p.2)

/-- `_build_ascii_url`: split the URL into prefix, query and fragment as
`urlparse` does (the rarely used `;parameters` component, absent from this
program's URLs, is left inside the prefix), rebuild the query with
`buildQuery`, and reassemble as `urlunparse` does, attaching `?`/`#` only to
non-empty components. -/
def build_ascii_url (base sd st ed et : List Char) : Except (List Char) (List Char) :=
  let bf := breakAt '#' base
  let pq := breakAt '?' bf.1
  match buildQuery ((pq.2).getD []) sd st ed et with
  | .error e => .error e
  | .ok nq =>
    .ok (pq.1 ++ (if nq.isEmpty then [] else '?' :: nq) ++
      (match bf.2 with
       | none => []
       | some f => if f.isEmpty then [] else '#' :: f))

/-- The module constant `DEFAULT_URL`. -/
def DEFAULT_URL : List Char :=
  ("https://www.nmdb.eu/nest/draw_graph.php?" ++
   "formchk=1&stations[]=OULU&tabchoice=revori&dtype=corr_for_efficiency&" ++
   "tresolution=5&yunits=0&shift=2&date_choice=bydate&" ++
   "start_day=29&start_month=7&start_year=2025&start_hour=0&start_min=0&" ++
   "end_day=29&end_month=8&end_year=2025&end_hour=23&end_min=59&" ++
   "output=plot&ygrid=1&mline=1&transp=0&fontsize=1&text_color=222222&" ++
   "background_color=FFFFFF&margin_color=FFFFFF").toList

/-- The fixed debug dump path of `nmdb_data`. -/
def debugPath : List Char := "nmdb_debug.txt".toList

/-- The observable outcome of `nmdb_data` once the response text is in hand:
either the empty-table failure (the raw text is written verbatim to the
debug path and a `RuntimeError` is raised, so no CSV is produced), or a
successful save of the non-empty table to the CSV path. -/
inductive Outcome where
  | failure (dump : List Char × List Char)
  | success (csv : List Char) (table : List Row)
  deriving Repr, DecidableEq

/-- The post-download half of `nmdb_data`: parse the response text and
either fail (writing the debug dump) or save the CSV. -/
def nmdb_process (text out_csv : List Char) : Except Unit Outcome :=
  match parse_ascii text with
  | .error e => .error e
  | .ok df => if df = [] then .ok (.failure (debugPath, text)) else .ok (.success out_csv df)

/-- The observable result of a whole `nmdb_data` call. -/
inductive RunResult where
  | valueError (msg : List Char)
  | lineError
  | outcome (url : List Char) (o : Outcome)
  deriving Repr, DecidableEq

/-- `nmdb_data`: choose the base URL (`base_url or DEFAULT_URL`, so `none`
and the empty string both fall back to the default), build the ASCII URL —
raising `ValueError` before anything else happens — then download and
process.  The HTTP response body is supplied as the `response` parameter:
the `.valueError` result is produced before the download, so it cannot
depend on `response`. -/
def nmdb_data (sd st ed et out_csv : List Char) (base_url : Option (List Char))
    (response : List Char) : RunResult :=
  let base := match base_url with
    | some b => if b.isEmpty then DEFAULT_URL else b
    | none => DEFAULT_URL
  match build_ascii_url base sd st ed et with
  | .error m => .valueError m
  | .ok url =>
    match nmdb_process response out_csv with
    | .error _ => .lineError
    | .ok o => .outcome url o

/-- Lookup in the insertion-ordered query dictionary. -/
def lookupQs (k : List Char) : List (List Char × List (List Char)) → Option (List (List Char))
  | [] => none
  | kv :: rest => if k = kv.1 then some kv.2 else lookupQs k rest

/-- The eleven query parameters `_build_ascii_url` overwrites. -/
def overwrittenKeys : List (List Char) :=
  ["start_day".toList, "start_month".toList, "start_year".toList, "start_hour".toList,
   "start_min".toList, "end_day".toList, "end_month".toList, "end_year".toList,
   "end_hour".toList, "end_min".toList, "output".toList]

/-- The character class of a full `NUM_RE` match: digits, signs, the decimal
point and the exponent letters. -/
def numChar (c : Char) : Bool :=
  c.isDigit || c == '+' || c == '-' || c == '.' || c == 'e' || c == 'E'

/-- Whether `p` is a prefix of `s`, character by character. -/
def startsWithChars : List Char → List Char → Bool
  | [], _ => true
  | _ :: _, [] => false
  | a :: as, b :: bs => a = b && startsWithChars as bs

/-- Whether `p` occurs as a contiguous substring of `s`; used to state that
a query parameter appears byte-identically inside a URL. -/
def containsSub (p : List Char) : List Char → Bool
  | [] => startsWithChars p []
  | c :: rest => startsWithChars p (c :: rest) || containsSub p rest

end Nmdb

namespace Nmdb

/-! ### Helper lemmas -/

theorem lstrip0OrZero_ne_nil (s : List Char) : lstrip0OrZero s ≠ [] := by
  unfold lstrip0OrZero
  dsimp only
  split <;> simp_all

theorem isDigit_ne {c x : Char} (h : c.isDigit = true) (hx : x.isDigit = false) : c ≠ x := by
  intro e
  rw [e, hx] at h
  exact Bool.noConfusion h

theorem matchDollar_of_body {body : List Char → Bool} {s : List Char}
    (h : body s = true) : matchDollar body s = true := by
  simp [matchDollar, h]

theorem dropWhile_head_false (p : Char → Bool) :
    ∀ l c r, List.dropWhile p l = c :: r → p c = false := by
  intro l
  induction l with
  | nil => intro c r h; simp at h
  | cons a t ih =>
    intro c r h
    rw [List.dropWhile_cons] at h
    by_cases hpa : p a = true
    · rw [if_pos hpa] at h
      exact ih c r h
    · rw [if_neg hpa] at h
      cases h
      simpa using hpa

theorem pyStrip_exists_nonspace {s : List Char} (h : pyStrip s ≠ []) :
    ∃ c ∈ pyStrip s, pyIsSpace c = false := by
  unfold pyStrip at h ⊢
  rcases hvc : (s.dropWhile pyIsSpace).reverse.dropWhile pyIsSpace with _ | ⟨c, r⟩
  · rw [hvc] at h; simp at h
  · exact ⟨c, by simp, dropWhile_head_false pyIsSpace _ c r hvc⟩

theorem pySplitAux_ne_nil_acc :
    ∀ (rest acc : List Char), acc ≠ [] → pySplitAux acc rest ≠ [] := by
  intro rest
  induction rest with
  | nil =>
    intro acc h
    simp only [pySplitAux]
    rw [if_neg (by simpa using h)]
    simp
  | cons c t ih =>
    intro acc h
    simp only [pySplitAux]
    by_cases hc : pyIsSpace c = true
    · rw [if_pos hc, if_neg (by simpa using h)]
      simp
    · rw [if_neg hc]
      exact ih (c :: acc) (by simp)

theorem pySplitAux_nil_ne_nil :
    ∀ (s : List Char), (∃ c ∈ s, pyIsSpace c = false) → pySplitAux [] s ≠ [] := by
  intro s
  induction s with
  | nil => rintro ⟨c, hc, -⟩; simp at hc
  | cons a t ih =>
    rintro ⟨c, hc, hcs⟩
    simp only [pySplitAux]
    by_cases ha : pyIsSpace a = true
    · rw [if_pos ha]
      simp only [List.isEmpty_nil, if_pos rfl]
      refine ih ⟨c, ?_, hcs⟩
      rcases List.mem_cons.mp hc with rfl | hmem
      · rw [ha] at hcs; exact Bool.noConfusion hcs
      · exact hmem
    · rw [if_neg ha]
      exact pySplitAux_ne_nil_acc t [a] (by simp)

theorem pySplit_ne_nil_of_strip {ln : List Char} (h : pyStrip ln ≠ []) :
    pySplit (pyStrip ln) ≠ [] := by
  obtain ⟨c, hc, hcs⟩ := pyStrip_exists_nonspace h
  exact pySplitAux_nil_ne_nil _ ⟨c, hc, hcs⟩

theorem parseLine_exists_ok (ln : List Char) : ∃ r, parseLine ln = .ok r := by
  unfold parseLine
  dsimp only
  split
  · exact ⟨none, rfl⟩
  · split
    · exact ⟨none, rfl⟩
    · split
      · exact ⟨_, rfl⟩
      · split
        · exact ⟨_, rfl⟩
        · split
          · exfalso
            have h0 : ¬ (pyStrip ln = []) := by assumption
            have heq : (pySplit (pyStrip ln)).getLast? = none := by assumption
            exact pySplit_ne_nil_of_strip h0 (List.getLast?_eq_none_iff.mp heq)
          · split
            · exact ⟨_, rfl⟩
            · split
              · exact ⟨_, rfl⟩
              · exact ⟨none, rfl⟩

theorem linesRows_skip {ln : List Char} (h : parseLine ln = .ok none) :
    ∀ pre post, linesRows (pre ++ ln :: post) = linesRows (pre ++ post) := by
  intro pre
  induction pre with
  | nil => intro post; simp [linesRows, h]
  | cons a t ih =>
    intro post
    simp only [List.cons_append]
    cases hpa : parseLine a with
    | error e => simp [linesRows, hpa]
    | ok o =>
      cases o with
      | none => simp [linesRows, hpa, ih]
      | some r => simp [linesRows, hpa, ih]

theorem takeDigits1_mem {s r : List Char} (h : takeDigits1 s = some r) :
    ∀ c ∈ s, c.isDigit = true ∨ c ∈ r := by
  cases s with
  | nil => simp [takeDigits1] at h
  | cons a t =>
    simp only [takeDigits1] at h
    split at h
    · rename_i ha
      rw [Option.some.injEq] at h
      subst h
      intro c hc
      rcases List.mem_cons.mp hc with rfl | hct
      · exact Or.inl ha
      · rw [← List.takeWhile_append_dropWhile Char.isDigit t] at hct
        rcases List.mem_append.mp hct with h1 | h2
        · exact Or.inl (List.mem_takeWhile_imp h1)
        · exact Or.inr h2
    · exact absurd h (by simp)

theorem stripSign_mem (s : List Char) (c : Char) (hc : c ∈ s) :
    c ∈ stripSign s ∨ c = '+' ∨ c = '-' := by
  cases s with
  | nil => simp at hc
  | cons a t =>
    simp only [stripSign]
    by_cases ha : a = '+' ∨ a = '-'
    · rw [if_pos ha]
      rcases List.mem_cons.mp hc with rfl | hct
      · exact Or.inr ha
      · exact Or.inl hct
    · rw [if_neg ha]
      exact Or.inl hc

theorem expPart_mem (s : List Char) (h : expPart s = true) :
    ∀ c ∈ s, numChar c = true := by
  cases s with
  | nil => intro c hc; simp at hc
  | cons a r =>
    simp only [expPart] at h
    split at h
    · rename_i ha
      have hd : takeDigits1 (stripSign r) = some [] := by
        cases htd : takeDigits1 (stripSign r) with
        | none => rw [htd] at h; simp at h
        | some l =>
          cases l with
          | nil => rfl
          | cons x xs => rw [htd] at h; simp at h
      intro c hc
      rcases List.mem_cons.mp hc with rfl | hcr
      · rcases ha with rfl | rfl <;> simp [numChar]
      · rcases stripSign_mem r c hcr with hmem | rfl | rfl
        · rcases takeDigits1_mem hd c hmem with hdig | hin
          · simp [numChar, hdig]
          · simp at hin
        · simp [numChar]
        · simp [numChar]
    · exact absurd h (by simp)

theorem fracExpPart_mem (s : List Char) (h : fracExpPart s = true) :
    ∀ c ∈ s, numChar c = true := by
  cases s with
  | nil => intro c hc; simp at hc
  | cons b r =>
    simp only [fracExpPart] at h
    split at h
    · rename_i hb
      subst hb
      cases htd : takeDigits1 r with
      | none => rw [htd] at h; simp at h
      | some s2 =>
        rw [htd] at h
        intro c hc
        rcases List.mem_cons.mp hc with rfl | hcr
        · simp [numChar]
        · rcases takeDigits1_mem htd c hcr with hdig | hin
          · simp [numChar, hdig]
          · exact expPart_mem s2 h c hin
    · exact expPart_mem (b :: r) h

theorem numBody_mem (s : List Char) (h : numBody s = true) :
    ∀ c ∈ s, numChar c = true := by
  unfold numBody at h
  cases htd : takeDigits1 (stripSign s) with
  | none => rw [htd] at h; simp at h
  | some s1 =>
    rw [htd] at h
    intro c hc
    rcases stripSign_mem s c hc with hmem | rfl | rfl
    · rcases takeDigits1_mem htd c hmem with hdig | hin
      · simp [numChar, hdig]
      · exact fracExpPart_mem s1 h c hin
    · simp [numChar]
    · simp [numChar]

theorem dtAt_mem {s m : List Char} (h : dtAt s = some m) :
    ∃ c ∈ s, c = 'T' ∨ c = ' ' := by
  unfold dtAt at h
  split at h
  · rename_i y1 y2 y3 y4 m1 m2 d1 d2 sep h1 h2 n1 n2 rest
    split at h
    · rename_i hcond
      exact ⟨sep, by simp, hcond.2.2.2.2.2.2.2.2.1⟩
    · exact absurd h (by simp)
  · exact absurd h (by simp)

theorem dtSearch_mem : ∀ {s m : List Char}, dtSearch s = some m → ∃ c ∈ s, c = 'T' ∨ c = ' ' := by
  intro s
  induction s with
  | nil => intro m h; simp [dtSearch] at h
  | cons a rest ih =>
    intro m h
    unfold dtSearch at h
    cases hat : dtAt (a :: rest) with
    | some mm => exact dtAt_mem hat
    | none =>
      rw [hat] at h
      obtain ⟨c, hc, hT⟩ := ih h
      exact ⟨c, List.mem_cons_of_mem a hc, hT⟩

theorem numSearch_inv {s n : List Char} (h : numSearch s = some n) :
    numBody s = true ∨ (s.getLast? = some '\n' ∧ numBody s.dropLast = true) := by
  unfold numSearch at h
  split at h
  · exact Or.inl (by assumption)
  · split at h
    · split at h
      · exact Or.inr ⟨by assumption, by assumption⟩
      · exact absurd h (by simp)
    · exact absurd h (by simp)

theorem dtSearch_or_numSearch_none (s : List Char) :
    dtSearch s = none ∨ numSearch s = none := by
  rcases hd : dtSearch s with _ | ⟨m⟩
  · exact Or.inl rfl
  · right
    rcases hn : numSearch s with _ | ⟨n⟩
    · rfl
    · exfalso
      obtain ⟨c, hc, hT⟩ := dtSearch_mem hd
      rcases numSearch_inv hn with hb | ⟨hlast, hb⟩
      · have hnc := numBody_mem s hb c hc
        rcases hT with rfl | rfl <;> exact absurd hnc (by decide)
      · obtain ⟨l', rfl⟩ := List.getLast?_eq_some_iff.mp hlast
        rw [List.dropLast_concat] at hb
        rcases List.mem_append.mp hc with hcl | hcl
        · have hnc := numBody_mem l' hb c hcl
          rcases hT with rfl | rfl <;> exact absurd hnc (by decide)
        · rcases hT with rfl | rfl <;> simp at hcl

theorem digit_ne_dash {c : Char} (h : c.isDigit = true) : ¬ c = '-' :=
  isDigit_ne h (by decide)

theorem digit_ne_colon {c : Char} (h : c.isDigit = true) : ¬ c = ':' :=
  isDigit_ne h (by decide)

theorem splitSep_cons_ne {sep a : Char} (ha : ¬ a = sep) {s g : List Char}
    {gs : List (List Char)} (h : splitSep sep s = g :: gs) :
    splitSep sep (a :: s) = (a :: g) :: gs := by
  simp only [splitSep]
  rw [if_neg ha, h]

theorem splitSep_cons_sep (sep : Char) (s : List Char) :
    splitSep sep (sep :: s) = [] :: splitSep sep s := by
  simp [splitSep]

theorem splitSep_no_sep {sep : Char} :
    ∀ {s : List Char}, (∀ c ∈ s, ¬ c = sep) → splitSep sep s = [s] := by
  intro s
  induction s with
  | nil => intro _; rfl
  | cons c rest ih =>
    intro h
    have hc : ¬ c = sep := h c (by simp)
    have hr := ih fun x hx => h x (List.mem_cons_of_mem c hx)
    simp only [splitSep]
    rw [if_neg hc, hr]

theorem splitSep_date {y1 y2 y3 y4 m1 m2 d1 d2 : Char} {t : List Char}
    (hy1 : y1.isDigit = true) (hy2 : y2.isDigit = true) (hy3 : y3.isDigit = true)
    (hy4 : y4.isDigit = true) (hm1 : m1.isDigit = true) (hm2 : m2.isDigit = true)
    (hd1 : d1.isDigit = true) (hd2 : d2.isDigit = true) (ht : ∀ c ∈ t, ¬ c = '-') :
    splitSep '-' (y1 :: y2 :: y3 :: y4 :: '-' :: m1 :: m2 :: '-' :: d1 :: d2 :: t) =
      [[y1, y2, y3, y4], [m1, m2], d1 :: d2 :: t] := by
  have h0 : splitSep '-' (d1 :: d2 :: t) = [d1 :: d2 :: t] := by
    apply splitSep_no_sep
    intro c hc
    rcases List.mem_cons.mp hc with rfl | hc2
    · exact digit_ne_dash hd1
    rcases List.mem_cons.mp hc2 with rfl | hc3
    · exact digit_ne_dash hd2
    · exact ht c hc3
  have h1 : splitSep '-' ('-' :: d1 :: d2 :: t) = [] :: [d1 :: d2 :: t] := by
    rw [splitSep_cons_sep, h0]
  have h2 := splitSep_cons_ne (digit_ne_dash hm2) h1
  have h3 := splitSep_cons_ne (digit_ne_dash hm1) h2
  have h4 : splitSep '-' ('-' :: m1 :: m2 :: '-' :: d1 :: d2 :: t) =
      [] :: [m1, m2] :: [d1 :: d2 :: t] := by
    rw [splitSep_cons_sep, h3]
  have h5 := splitSep_cons_ne (digit_ne_dash hy4) h4
  have h6 := splitSep_cons_ne (digit_ne_dash hy3) h5
  have h7 := splitSep_cons_ne (digit_ne_dash hy2) h6
  have h8 := splitSep_cons_ne (digit_ne_dash hy1) h7
  exact h8

theorem splitSep_time {p1 p2 n1 n2 : Char} {t : List Char}
    (hp1 : p1.isDigit = true) (hp2 : p2.isDigit = true) (hn1 : n1.isDigit = true)
    (hn2 : n2.isDigit = true) (ht : ∀ c ∈ t, ¬ c = ':') :
    splitSep ':' (p1 :: p2 :: ':' :: n1 :: n2 :: t) = [[p1, p2], n1 :: n2 :: t] := by
  have h0 : splitSep ':' (n1 :: n2 :: t) = [n1 :: n2 :: t] := by
    apply splitSep_no_sep
    intro c hc
    rcases List.mem_cons.mp hc with rfl | hc2
    · exact digit_ne_colon hn1
    rcases List.mem_cons.mp hc2 with rfl | hc3
    · exact digit_ne_colon hn2
    · exact ht c hc3
  have h1 : splitSep ':' (':' :: n1 :: n2 :: t) = [] :: [n1 :: n2 :: t] := by
    rw [splitSep_cons_sep, h0]
  have h2 := splitSep_cons_ne (digit_ne_colon hp2) h1
  have h3 := splitSep_cons_ne (digit_ne_colon hp1) h2
  exact h3

theorem dateBody_split {s : List Char} (hb : dateBody s = true) :
    ∃ y1 y2 y3 y4 m1 m2 d1 d2, s = [y1, y2, y3, y4, '-', m1, m2, '-', d1, d2] ∧
      y1.isDigit = true ∧ y2.isDigit = true ∧ y3.isDigit = true ∧ y4.isDigit = true ∧
      m1.isDigit = true ∧ m2.isDigit = true ∧ d1.isDigit = true ∧ d2.isDigit = true := by
  unfold dateBody at hb
  split at hb
  · rename_i y1 y2 y3 y4 m1 m2 d1 d2
    simp only [Bool.and_eq_true] at hb
    exact ⟨y1, y2, y3, y4, m1, m2, d1, d2, rfl,
      hb.1.1.1.1.1.1.1, hb.1.1.1.1.1.1.2, hb.1.1.1.1.1.2, hb.1.1.1.1.2,
      hb.1.1.1.2, hb.1.1.2, hb.1.2, hb.2⟩
  · exact absurd hb (by simp)

theorem timeBody_split {s : List Char} (hb : timeBody s = true) :
    ∃ p1 p2 n1 n2, s = [p1, p2, ':', n1, n2] ∧
      p1.isDigit = true ∧ p2.isDigit = true ∧ n1.isDigit = true ∧ n2.isDigit = true := by
  unfold timeBody at hb
  split at hb
  · rename_i p1 p2 n1 n2
    simp only [Bool.and_eq_true] at hb
    exact ⟨p1, p2, n1, n2, rfl, hb.1.1.1, hb.1.1.2, hb.1.2, hb.2⟩
  · exact absurd hb (by simp)

theorem matchDollar_split {body : List Char → Bool} {s : List Char}
    (h : matchDollar body s = true) :
    body s = true ∨ ∃ l', s = l' ++ ['\n'] ∧ body l' = true := by
  unfold matchDollar at h
  rcases Bool.or_eq_true_iff.mp h with hb | hnl
  · exact Or.inl hb
  · right
    split at hnl
    · rename_i hlast
      obtain ⟨l', rfl⟩ := List.getLast?_eq_some_iff.mp hlast
      rw [List.dropLast_concat] at hnl
      exact ⟨l', rfl, hnl⟩
    · exact absurd hnl (by simp)

theorem dateMatch_splitSep {s : List Char} (h : dateMatch s = true) :
    ∃ g1 g2 g3, splitSep '-' s = [g1, g2, g3] := by
  rcases matchDollar_split h with hb | ⟨l', rfl, hb⟩
  · obtain ⟨y1, y2, y3, y4, m1, m2, d1, d2, rfl, h1, h2, h3, h4, h5, h6, h7, h8⟩ :=
      dateBody_split hb
    exact ⟨_, _, _, splitSep_date h1 h2 h3 h4 h5 h6 h7 h8 (by intro c hc; simp at hc)⟩
  · obtain ⟨y1, y2, y3, y4, m1, m2, d1, d2, rfl, h1, h2, h3, h4, h5, h6, h7, h8⟩ :=
      dateBody_split hb
    have hsp := splitSep_date (t := ['\n']) h1 h2 h3 h4 h5 h6 h7 h8
      (by intro c hc; simp only [List.mem_singleton] at hc; subst hc; decide)
    simp only [List.cons_append, List.nil_append]
    exact ⟨_, _, _, hsp⟩

theorem timeMatch_splitSep {s : List Char} (h : timeMatch s = true) :
    ∃ g1 g2, splitSep ':' s = [g1, g2] := by
  rcases matchDollar_split h with hb | ⟨l', rfl, hb⟩
  · obtain ⟨p1, p2, n1, n2, rfl, h1, h2, h3, h4⟩ := timeBody_split hb
    exact ⟨_, _, splitSep_time h1 h2 h3 h4 (by intro c hc; simp at hc)⟩
  · obtain ⟨p1, p2, n1, n2, rfl, h1, h2, h3, h4⟩ := timeBody_split hb
    have hsp := splitSep_time (t := ['\n']) h1 h2 h3 h4
      (by intro c hc; simp only [List.mem_singleton] at hc; subst hc; decide)
    simp only [List.cons_append, List.nil_append]
    exact ⟨_, _, hsp⟩

theorem dtq_isOk {ds ts : List Char} (h1 : dateMatch ds = true) (h2 : timeMatch ts = true) :
    ∃ p, date_time_to_query_parts ds ts = .ok p := by
  obtain ⟨g1, g2, g3, hds⟩ := dateMatch_splitSep h1
  obtain ⟨q1, q2, hts⟩ := timeMatch_splitSep h2
  refine ⟨(lstrip0OrZero g3, lstrip0OrZero g2, g1, lstrip0OrZero q1, lstrip0OrZero q2), ?_⟩
  unfold date_time_to_query_parts
  rw [if_pos h1, if_pos h2, hds, hts]

theorem lookupQs_setKey_self (d : List (List Char × List (List Char)))
    (k : List Char) (v : List (List Char)) : lookupQs k (setKey d k v) = some v := by
  induction d with
  | nil => simp [setKey, lookupQs]
  | cons kv rest ih =>
    rcases kv with ⟨k', v'⟩
    simp only [setKey]
    by_cases h : k = k'
    · rw [if_pos h]
      simp [lookupQs, h]
    · rw [if_neg h]
      simp [lookupQs, h, ih]

theorem lookupQs_setKey_ne (k q : List Char) (hne : k ≠ q)
    (d : List (List Char × List (List Char))) (v : List (List Char)) :
    lookupQs k (setKey d q v) = lookupQs k d := by
  induction d with
  | nil => simp [setKey, lookupQs, hne]
  | cons kv rest ih =>
    rcases kv with ⟨k'', v''⟩
    simp only [setKey]
    by_cases h : q = k''
    · rw [if_pos h]
      subst h
      simp [lookupQs, hne]
    · rw [if_neg h]
      by_cases hk : k = k''
      · simp [lookupQs, hk]
      · simp [lookupQs, hk, ih]

theorem dtq_shape {y1 y2 y3 y4 m1 m2 d1 d2 p1 p2 n1 n2 : Char}
    (hy1 : y1.isDigit = true) (hy2 : y2.isDigit = true) (hy3 : y3.isDigit = true)
    (hy4 : y4.isDigit = true) (hm1 : m1.isDigit = true) (hm2 : m2.isDigit = true)
    (hd1 : d1.isDigit = true) (hd2 : d2.isDigit = true) (hp1 : p1.isDigit = true)
    (hp2 : p2.isDigit = true) (hn1 : n1.isDigit = true) (hn2 : n2.isDigit = true) :
    date_time_to_query_parts [y1, y2, y3, y4, '-', m1, m2, '-', d1, d2] [p1, p2, ':', n1, n2] =
      .ok (lstrip0OrZero [d1, d2], lstrip0OrZero [m1, m2], [y1, y2, y3, y4],
        lstrip0OrZero [p1, p2], lstrip0OrZero [n1, n2]) := by
  have hdm : dateMatch [y1, y2, y3, y4, '-', m1, m2, '-', d1, d2] = true :=
    matchDollar_of_body (by simp [dateBody, hy1, hy2, hy3, hy4, hm1, hm2, hd1, hd2])
  have htm : timeMatch [p1, p2, ':', n1, n2] = true :=
    matchDollar_of_body (by simp [timeBody, hp1, hp2, hn1, hn2])
  have hds := splitSep_date (t := []) hy1 hy2 hy3 hy4 hm1 hm2 hd1 hd2
    (by intro c hc; simp at hc)
  have hts := splitSep_time (t := []) hp1 hp2 hn1 hn2 (by intro c hc; simp at hc)
  unfold date_time_to_query_parts
  rw [if_pos hdm, if_pos htm, hds, hts]

theorem build_err {sd st ed et : List Char} (b : List Char)
    (h : dateMatch sd = false ∨ timeMatch st = false ∨ dateMatch ed = false ∨
      timeMatch et = false) :
    ∃ msg, build_ascii_url b sd st ed et = .error msg := by
  suffices hq : ∃ msg,
      buildQuery (((breakAt '?' (breakAt '#' b).1).2).getD []) sd st ed et = .error msg by
    obtain ⟨msg, hmsg⟩ := hq
    refine ⟨msg, ?_⟩
    unfold build_ascii_url
    dsimp only
    rw [hmsg]
  generalize (((breakAt '?' (breakAt '#' b).1).2).getD []) = q
  by_cases h1 : dateMatch sd = true
  · by_cases h2 : timeMatch st = true
    · obtain ⟨pS, hpS⟩ := dtq_isOk h1 h2
      obtain ⟨a1, a2, a3, a4, a5⟩ := pS
      by_cases h3 : dateMatch ed = true
      · by_cases h4 : timeMatch et = true
        · exfalso; rcases h with h | h | h | h <;> simp_all
        · refine ⟨timeMsg, ?_⟩
          have hde : date_time_to_query_parts ed et = .error timeMsg := by
            unfold date_time_to_query_parts
            rw [if_pos h3, if_neg h4]
          unfold buildQuery
          rw [hpS, hde]
      · refine ⟨dateMsg, ?_⟩
        have hde : date_time_to_query_parts ed et = .error dateMsg := by
          unfold date_time_to_query_parts
          rw [if_neg h3]
        unfold buildQuery
        rw [hpS, hde]
    · refine ⟨timeMsg, ?_⟩
      have hds : date_time_to_query_parts sd st = .error timeMsg := by
        unfold date_time_to_query_parts
        rw [if_pos h1, if_neg h2]
      unfold buildQuery
      rw [hds]
  · refine ⟨dateMsg, ?_⟩
    have hds : date_time_to_query_parts sd st = .error dateMsg := by
      unfold date_time_to_query_parts
      rw [if_neg h1]
    unfold buildQuery
    rw [hds]

end Nmdb

namespace Nmdb

/-! ### Claim theorems -/

/-- C1: for every non-empty, non-comment line whose first token matches the
date pattern, whose second token matches the time pattern and which has at
least three tokens, the line parser returns the format-A row
(token0 ++ " " ++ token1, token2) — format A wins before formats B, C and D
are ever considered, in particular for lines with extra numeric trailing
tokens that would also satisfy format C. -/
theorem claim_C1 (ln : List Char)
    (h1 : pyStrip ln ≠ [])
    (h2 : ¬ (pyStrip ln).head? = some '#')
    (h3 : 3 ≤ (pySplit (pyStrip ln)).length)
    (h4 : dateMatch ((pySplit (pyStrip ln)).getD 0 []) = true)
    (h5 : timeSecMatch ((pySplit (pyStrip ln)).getD 1 []) = true) :
    parseLine ln = .ok (some
      ((pySplit (pyStrip ln)).getD 0 [] ++ ' ' :: (pySplit (pyStrip ln)).getD 1 [],
        (pySplit (pyStrip ln)).getD 2 [])) := by
  unfold parseLine
  dsimp only
  rw [if_neg h1, if_neg h2, if_pos ⟨h3, h4, h5⟩]

/-- Witness for C1: the spec's own example line, which has an extra numeric
trailing token satisfying format C as well, parses via format A. -/
theorem claim_C1_witness :
    parseLine ("2025-07-29 00:05:00 12345.6 3.2".toList) =
      .ok (some ("2025-07-29 00:05:00".toList, "12345.6".toList)) :=
  claim_C1 ("2025-07-29 00:05:00 12345.6 3.2".toList)
    (by decide) (by decide) (by decide) (by decide) (by decide)

/-- C2: contrary to the claim, format D can never emit a raw row, because
NUM_RE is anchored with both anchors, so NUM_RE.search on the joined line
only succeeds when the whole line is one numeric literal — and such a string
cannot also contain the T-or-space separator the datetime search requires.
The first conjunct evaluates the parser on the claim's kind of line (a
datetime substring plus a numeric token embedded in other text): the line is
skipped, not parsed. -/
theorem claim_C2 :
    parseLine ("station 2025-07-29T00:05 reading 3.2 counts".toList) = .ok none ∧
    ∀ s : List Char, dtSearch s = none ∨ numSearch s = none :=
  ⟨rfl, dtSearch_or_numSearch_none⟩

/-- C4: when parsing and assembly yield zero valid rows, the operation
writes the complete raw response text verbatim to the fixed debug path and
fails; a success outcome (the only path that writes a CSV) carries the
requested CSV path and a non-empty, fully assembled table. -/
theorem claim_C4 (text out_csv : List Char) :
    (parse_ascii text = .ok [] →
      nmdb_process text out_csv = .ok (.failure (debugPath, text))) ∧
    (∀ csv tbl, nmdb_process text out_csv = .ok (.success csv tbl) →
      csv = out_csv ∧ tbl ≠ [] ∧ parse_ascii text = .ok tbl) := by
  constructor
  · intro h
    unfold nmdb_process
    rw [h]
    simp
  · intro csv tbl h
    unfold nmdb_process at h
    cases hp : parse_ascii text with
    | error e => rw [hp] at h; simp at h
    | ok df =>
      rw [hp] at h
      dsimp only at h
      by_cases hdf : df = []
      · rw [if_pos hdf] at h
        simp at h
      · rw [if_neg hdf] at h
        simp only [Except.ok.injEq, Outcome.success.injEq] at h
        obtain ⟨hcsv, htbl⟩ := h
        subst htbl
        exact ⟨hcsv.symm, hdf, rfl⟩

/-- Witness for C4: a comment-only response yields the empty table, and the
operation fails with the verbatim debug dump. -/
theorem claim_C4_witness :
    parse_ascii ("# only comments\n\n".toList) = .ok [] ∧
    nmdb_process ("# only comments\n\n".toList) ("out.csv".toList) =
      .ok (.failure (debugPath, "# only comments\n\n".toList)) :=
  ⟨rfl, (claim_C4 ("# only comments\n\n".toList) ("out.csv".toList)).1 rfl⟩

/-- C8: blank lines, comment lines and lines matching none of the four
formats are skipped silently (never an exception), and removing such a line
from the input leaves the collected raw rows unchanged. -/
theorem claim_C8 (ln : List Char) (pre post : List (List Char)) :
    (pyStrip ln = [] → parseLine ln = .ok none) ∧
    ((pyStrip ln).head? = some '#' → parseLine ln = .ok none) ∧
    (pyStrip ln ≠ [] →
      ¬ (3 ≤ (pySplit (pyStrip ln)).length ∧
          dateMatch ((pySplit (pyStrip ln)).getD 0 []) = true ∧
          timeSecMatch ((pySplit (pyStrip ln)).getD 1 []) = true) →
      ¬ (2 ≤ (pySplit (pyStrip ln)).length ∧
          dateMatch ((pySplit (pyStrip ln)).getD 0 []) = true ∧
          numMatch ((pySplit (pyStrip ln)).getD 1 []) = true) →
      ¬ (numMatch ((pySplit (pyStrip ln)).getLast?.getD []) = true ∧
          2 ≤ (pySplit (pyStrip ln)).length) →
      (dtSearch (joinSpace (pySplit (pyStrip ln))) = none ∨
        numSearch (joinSpace (pySplit (pyStrip ln))) = none) →
      parseLine ln = .ok none) ∧
    (parseLine ln = .ok none → linesRows (pre ++ ln :: post) = linesRows (pre ++ post)) := by
  refine ⟨?_, ?_, ?_, fun h => linesRows_skip h pre post⟩
  · intro h
    unfold parseLine
    dsimp only
    rw [if_pos h]
  · intro h
    unfold parseLine
    dsimp only
    by_cases h0 : pyStrip ln = []
    · rw [if_pos h0]
    · rw [if_neg h0, if_pos h]
  · intro h0 hA hB hC hD
    unfold parseLine
    dsimp only
    rw [if_neg h0]
    by_cases hh : (pyStrip ln).head? = some '#'
    · rw [if_pos hh]
    · rw [if_neg hh, if_neg hA, if_neg hB]
      have hne := pySplit_ne_nil_of_strip h0
      rcases hlast : (pySplit (pyStrip ln)).getLast? with _ | last
      · exact absurd (List.getLast?_eq_none_iff.mp hlast) hne
      · rw [hlast] at hC
        simp only [Option.getD_some] at hC
        dsimp only
        rw [if_neg hC]
        rcases hdt : dtSearch (joinSpace (pySplit (pyStrip ln))) with _ | m
        · rcases hns : numSearch (joinSpace (pySplit (pyStrip ln))) with _ | n <;> rfl
        · rcases hns : numSearch (joinSpace (pySplit (pyStrip ln))) with _ | n
          · rfl
          · exfalso
            rcases hD with hD | hD
            · rw [hdt] at hD; exact Option.noConfusion hD
            · rw [hns] at hD; exact Option.noConfusion hD

/-- Witness for C8: a blank line, a comment line and a line with no
recognizable date or number are all skipped. -/
theorem claim_C8_witness :
    parseLine ("".toList) = .ok none ∧
    parseLine ("# comment".toList) = .ok none ∧
    parseLine ("no data here".toList) = .ok none :=
  ⟨(claim_C8 ("".toList) [] []).1 (by decide),
   (claim_C8 ("# comment".toList) [] []).2.1 (by decide),
   (claim_C8 ("no data here".toList) [] []).2.2.1 (by decide) (by decide) (by decide)
     (by decide) (by decide)⟩

/-- C9: the line parser is total — the unguarded last-token access in the
format-C test can never raise, because a line that strips to the empty
string is skipped before tokenization and a non-empty stripped line always
splits into at least one token. -/
theorem claim_C9 (ln : List Char) :
    (∃ r, parseLine ln = .ok r) ∧ (pyStrip ln ≠ [] → pySplit (pyStrip ln) ≠ []) :=
  ⟨parseLine_exists_ok ln, fun h => pySplit_ne_nil_of_strip h⟩

/-- Witness for C9: a concrete non-empty line strips to a non-empty string
and tokenizes to a non-empty token list. -/
theorem claim_C9_witness :
    pyStrip ("x 1".toList) ≠ [] ∧ pySplit (pyStrip ("x 1".toList)) ≠ [] :=
  ⟨by decide, (claim_C9 ("x 1".toList)).2 (by decide)⟩

/-- C6: for every date and time of the validated shapes, the query parts are
the day, month, hour and minute with leading zeros stripped (where stripping
everything falls back to "0", never the empty string) and the year passed
through unchanged; in particular "00" maps to "0" and "05" maps to "5". -/
theorem claim_C6 (y1 y2 y3 y4 m1 m2 d1 d2 p1 p2 n1 n2 : Char)
    (hy1 : y1.isDigit = true) (hy2 : y2.isDigit = true) (hy3 : y3.isDigit = true)
    (hy4 : y4.isDigit = true) (hm1 : m1.isDigit = true) (hm2 : m2.isDigit = true)
    (hd1 : d1.isDigit = true) (hd2 : d2.isDigit = true) (hp1 : p1.isDigit = true)
    (hp2 : p2.isDigit = true) (hn1 : n1.isDigit = true) (hn2 : n2.isDigit = true) :
    date_time_to_query_parts [y1, y2, y3, y4, '-', m1, m2, '-', d1, d2]
        [p1, p2, ':', n1, n2] =
      .ok (lstrip0OrZero [d1, d2], lstrip0OrZero [m1, m2], [y1, y2, y3, y4],
        lstrip0OrZero [p1, p2], lstrip0OrZero [n1, n2]) ∧
    lstrip0OrZero ("00".toList) = "0".toList ∧
    lstrip0OrZero ("05".toList) = "5".toList ∧
    lstrip0OrZero [d1, d2] ≠ [] ∧ lstrip0OrZero [m1, m2] ≠ [] ∧
    lstrip0OrZero [p1, p2] ≠ [] ∧ lstrip0OrZero [n1, n2] ≠ [] :=
  ⟨dtq_shape hy1 hy2 hy3 hy4 hm1 hm2 hd1 hd2 hp1 hp2 hn1 hn2, by decide, by decide,
   lstrip0OrZero_ne_nil _, lstrip0OrZero_ne_nil _, lstrip0OrZero_ne_nil _,
   lstrip0OrZero_ne_nil _⟩

/-- Witness for C6: the date "2025-07-00" with time "05:00" yields day "0",
month "7", year "2025", hour "5", minute "0". -/
theorem claim_C6_witness :
    date_time_to_query_parts ("2025-07-00".toList) ("05:00".toList) =
      .ok ("0".toList, "7".toList, "2025".toList, "5".toList, "0".toList) :=
  (claim_C6 '2' '0' '2' '5' '0' '7' '0' '0' '0' '5' '0' '0'
    rfl rfl rfl rfl rfl rfl rfl rfl rfl rfl rfl rfl).1

/-- C7: when any of the four date/time arguments fails its pattern, the
whole operation is a `ValueError`, uniformly in the response text — the
validation error is raised while building the URL, before the download. -/
theorem claim_C7 (sd st ed et out_csv : List Char) (base_url : Option (List Char))
    (h : dateMatch sd = false ∨ timeMatch st = false ∨ dateMatch ed = false ∨
      timeMatch et = false) :
    ∃ msg, ∀ response, nmdb_data sd st ed et out_csv base_url response =
      .valueError msg := by
  obtain ⟨msg, hmsg⟩ := build_err
    (match base_url with
      | some b => if b.isEmpty then DEFAULT_URL else b
      | none => DEFAULT_URL) h
  refine ⟨msg, fun response => ?_⟩
  unfold nmdb_data
  dsimp only
  rw [hmsg]

/-- Witness for C7: with a malformed start date, two different response
texts produce the same result, showing the failure does not depend on the
network response. -/
theorem claim_C7_witness :
    nmdb_data ("2025/07/29".toList) ("00:00".toList) ("2025-08-29".toList)
        ("23:59".toList) ("out.csv".toList) none ("AAA".toList) =
      nmdb_data ("2025/07/29".toList) ("00:00".toList) ("2025-08-29".toList)
        ("23:59".toList) ("out.csv".toList) none ("2025-07-29 00:05 1".toList) := by
  obtain ⟨msg, hmsg⟩ := claim_C7 ("2025/07/29".toList) ("00:00".toList)
    ("2025-08-29".toList) ("23:59".toList) ("out.csv".toList) none
    (Or.inl (by decide))
  rw [hmsg ("AAA".toList), hmsg ("2025-07-29 00:05 1".toList)]

/-- C10: validation is purely syntactic — every four-digit-dash-two-digit-
dash-two-digit date and two-digit-colon-two-digit time is accepted,
including the impossible "2025-13-99" at "25:61", whose values are embedded
verbatim (zero-stripped) into the built URL. -/
theorem claim_C10 (y1 y2 y3 y4 m1 m2 d1 d2 p1 p2 n1 n2 : Char)
    (hy1 : y1.isDigit = true) (hy2 : y2.isDigit = true) (hy3 : y3.isDigit = true)
    (hy4 : y4.isDigit = true) (hm1 : m1.isDigit = true) (hm2 : m2.isDigit = true)
    (hd1 : d1.isDigit = true) (hd2 : d2.isDigit = true) (hp1 : p1.isDigit = true)
    (hp2 : p2.isDigit = true) (hn1 : n1.isDigit = true) (hn2 : n2.isDigit = true) :
    (∃ parts, date_time_to_query_parts [y1, y2, y3, y4, '-', m1, m2, '-', d1, d2]
        [p1, p2, ':', n1, n2] = .ok parts) ∧
    date_time_to_query_parts ("2025-13-99".toList) ("25:61".toList) =
      .ok ("99".toList, "13".toList, "2025".toList, "25".toList, "61".toList) ∧
    build_ascii_url ("https://x/p?f=1".toList) ("2025-13-99".toList) ("25:61".toList)
        ("9999-00-00".toList) ("99:99".toList) =
      .ok (("https://x/p?f=1&start_day=99&start_month=13&start_year=2025&" ++
        "start_hour=25&start_min=61&end_day=0&end_month=0&end_year=9999&" ++
        "end_hour=99&end_min=99&output=ascii").toList) ∧
    containsSub ("start_month=13".toList)
      (("https://x/p?f=1&start_day=99&start_month=13&start_year=2025&" ++
        "start_hour=25&start_min=61&end_day=0&end_month=0&end_year=9999&" ++
        "end_hour=99&end_min=99&output=ascii").toList) = true :=
  ⟨⟨_, dtq_shape hy1 hy2 hy3 hy4 hm1 hm2 hd1 hd2 hp1 hp2 hn1 hn2⟩, rfl, rfl, by decide⟩

/-- Witness for C10: the impossible date "2025-13-99" and time "25:61" pass
validation. -/
theorem claim_C10_witness :
    date_time_to_query_parts ("2025-13-99".toList) ("25:61".toList) =
      .ok ("99".toList, "13".toList, "2025".toList, "25".toList, "61".toList) :=
  (claim_C10 '2' '0' '2' '5' '1' '3' '9' '9' '2' '5' '6' '1'
    rfl rfl rfl rfl rfl rfl rfl rfl rfl rfl rfl rfl).2.1

/-- C3 counterexample: query parameters do not in general reappear
byte-identically.  In the base URL `stations[]=OULU` is re-encoded as
`stations%5B%5D=OULU`, the empty-valued `b=` is dropped entirely, and the
percent-escaped `a=x%41` is decoded to `a=xA` — so the claim's byte-identity
is false at this concrete input. -/
theorem claim_C3_counterexample :
    build_ascii_url ("https://ex/p?stations[]=OULU&b=&a=x%41".toList)
        ("2025-07-29".toList) ("00:00".toList) ("2025-08-29".toList)
        ("23:59".toList) =
      .ok (("https://ex/p?stations%5B%5D=OULU&a=xA&start_day=29&start_month=7&" ++
        "start_year=2025&start_hour=0&start_min=0&end_day=29&end_month=8&" ++
        "end_year=2025&end_hour=23&end_min=59&output=ascii").toList) ∧
    containsSub ("stations[]=OULU".toList)
      ("https://ex/p?stations[]=OULU&b=&a=x%41".toList) = true ∧
    containsSub ("stations[]=OULU".toList)
      (("https://ex/p?stations%5B%5D=OULU&a=xA&start_day=29&start_month=7&" ++
        "start_year=2025&start_hour=0&start_min=0&end_day=29&end_month=8&" ++
        "end_year=2025&end_hour=23&end_min=59&output=ascii").toList) = false ∧
    containsSub ("b=".toList)
      ("https://ex/p?stations[]=OULU&b=&a=x%41".toList) = true ∧
    containsSub ("b=".toList)
      (("https://ex/p?stations%5B%5D=OULU&a=xA&start_day=29&start_month=7&" ++
        "start_year=2025&start_hour=0&start_min=0&end_day=29&end_month=8&" ++
        "end_year=2025&end_hour=23&end_min=59&output=ascii").toList) = false ∧
    containsSub ("a=x%41".toList)
      ("https://ex/p?stations[]=OULU&b=&a=x%41".toList) = true ∧
    containsSub ("a=x%41".toList)
      (("https://ex/p?stations%5B%5D=OULU&a=xA&start_day=29&start_month=7&" ++
        "start_year=2025&start_hour=0&start_min=0&end_day=29&end_month=8&" ++
        "end_year=2025&end_hour=23&end_min=59&output=ascii").toList) = false :=
  ⟨rfl, by decide, by decide, by decide, by decide, by decide, by decide⟩

/-- C3 (amended): for every base query string and validated date/time pairs,
the built query is the canonical re-encoding of the parsed base query with
exactly the ten date/time parameters and the output parameter (set to
"ascii") overwritten; every other parameter that survives parsing keeps its
decoded key and value list unchanged (so it is re-encoded, not byte-copied,
and empty-valued parameters are dropped by the parse). -/
theorem claim_C3_amended (q sd st ed et k sD sM sY sH sMin eD eM eY eH eMin : List Char)
    (hS : date_time_to_query_parts sd st = .ok (sD, sM, sY, sH, sMin))
    (hE : date_time_to_query_parts ed et = .ok (eD, eM, eY, eH, eMin))
    (hk : ¬ k ∈ overwrittenKeys) :
    buildQuery q sd st ed et =
      .ok (urlencodeQs (overwriteParams (parse_qs q) sD sM sY sH sMin eD eM eY eH eMin)) ∧
    lookupQs k (overwriteParams (parse_qs q) sD sM sY sH sMin eD eM eY eH eMin) = lookupQs k (parse_qs q) ∧
    lookupQs ("start_day".toList) (overwriteParams (parse_qs q) sD sM sY sH sMin eD eM eY eH eMin) =
      some [sD] ∧
    lookupQs ("start_month".toList) (overwriteParams (parse_qs q) sD sM sY sH sMin eD eM eY eH eMin) =
      some [sM] ∧
    lookupQs ("start_year".toList) (overwriteParams (parse_qs q) sD sM sY sH sMin eD eM eY eH eMin) =
      some [sY] ∧
    lookupQs ("start_hour".toList) (overwriteParams (parse_qs q) sD sM sY sH sMin eD eM eY eH eMin) =
      some [sH] ∧
    lookupQs ("start_min".toList) (overwriteParams (parse_qs q) sD sM sY sH sMin eD eM eY eH eMin) =
      some [sMin] ∧
    lookupQs ("end_day".toList) (overwriteParams (parse_qs q) sD sM sY sH sMin eD eM eY eH eMin) =
      some [eD] ∧
    lookupQs ("end_month".toList) (overwriteParams (parse_qs q) sD sM sY sH sMin eD eM eY eH eMin) =
      some [eM] ∧
    lookupQs ("end_year".toList) (overwriteParams (parse_qs q) sD sM sY sH sMin eD eM eY eH eMin) =
      some [eY] ∧
    lookupQs ("end_hour".toList) (overwriteParams (parse_qs q) sD sM sY sH sMin eD eM eY eH eMin) =
      some [eH] ∧
    lookupQs ("end_min".toList) (overwriteParams (parse_qs q) sD sM sY sH sMin eD eM eY eH eMin) =
      some [eMin] ∧
    lookupQs ("output".toList) (overwriteParams (parse_qs q) sD sM sY sH sMin eD eM eY eH eMin) =
      some ["ascii".toList] := by
  have hbuild : buildQuery q sd st ed et =
      .ok (urlencodeQs (overwriteParams (parse_qs q) sD sM sY sH sMin eD eM eY eH eMin)) := by
    unfold buildQuery
    rw [hS, hE]
  simp only [overwrittenKeys, List.mem_cons, List.not_mem_nil, or_false, not_or] at hk
  obtain ⟨hk1, hk2, hk3, hk4, hk5, hk6, hk7, hk8, hk9, hk10, hk11⟩ := hk
  refine ⟨hbuild, ?_, ?_, ?_, ?_, ?_, ?_, ?_, ?_, ?_, ?_, ?_, ?_⟩
  · unfold overwriteParams
    rw [lookupQs_setKey_ne k ("output".toList) hk11,
        lookupQs_setKey_ne k ("end_min".toList) hk10,
        lookupQs_setKey_ne k ("end_hour".toList) hk9,
        lookupQs_setKey_ne k ("end_year".toList) hk8,
        lookupQs_setKey_ne k ("end_month".toList) hk7,
        lookupQs_setKey_ne k ("end_day".toList) hk6,
        lookupQs_setKey_ne k ("start_min".toList) hk5,
        lookupQs_setKey_ne k ("start_hour".toList) hk4,
        lookupQs_setKey_ne k ("start_year".toList) hk3,
        lookupQs_setKey_ne k ("start_month".toList) hk2,
        lookupQs_setKey_ne k ("start_day".toList) hk1]
  · unfold overwriteParams
    rw [lookupQs_setKey_ne ("start_day".toList) ("output".toList) (by decide),
        lookupQs_setKey_ne ("start_day".toList) ("end_min".toList) (by decide),
        lookupQs_setKey_ne ("start_day".toList) ("end_hour".toList) (by decide),
        lookupQs_setKey_ne ("start_day".toList) ("end_year".toList) (by decide),
        lookupQs_setKey_ne ("start_day".toList) ("end_month".toList) (by decide),
        lookupQs_setKey_ne ("start_day".toList) ("end_day".toList) (by decide),
        lookupQs_setKey_ne ("start_day".toList) ("start_min".toList) (by decide),
        lookupQs_setKey_ne ("start_day".toList) ("start_hour".toList) (by decide),
        lookupQs_setKey_ne ("start_day".toList) ("start_year".toList) (by decide),
        lookupQs_setKey_ne ("start_day".toList) ("start_month".toList) (by decide),
        lookupQs_setKey_self]
  · unfold overwriteParams
    rw [lookupQs_setKey_ne ("start_month".toList) ("output".toList) (by decide),
        lookupQs_setKey_ne ("start_month".toList) ("end_min".toList) (by decide),
        lookupQs_setKey_ne ("start_month".toList) ("end_hour".toList) (by decide),
        lookupQs_setKey_ne ("start_month".toList) ("end_year".toList) (by decide),
        lookupQs_setKey_ne ("start_month".toList) ("end_month".toList) (by decide),
        lookupQs_setKey_ne ("start_month".toList) ("end_day".toList) (by decide),
        lookupQs_setKey_ne ("start_month".toList) ("start_min".toList) (by decide),
        lookupQs_setKey_ne ("start_month".toList) ("start_hour".toList) (by decide),
        lookupQs_setKey_ne ("start_month".toList) ("start_year".toList) (by decide),
        lookupQs_setKey_self]
  · unfold overwriteParams
    rw [lookupQs_setKey_ne ("start_year".toList) ("output".toList) (by decide),
        lookupQs_setKey_ne ("start_year".toList) ("end_min".toList) (by decide),
        lookupQs_setKey_ne ("start_year".toList) ("end_hour".toList) (by decide),
        lookupQs_setKey_ne ("start_year".toList) ("end_year".toList) (by decide),
        lookupQs_setKey_ne ("start_year".toList) ("end_month".toList) (by decide),
        lookupQs_setKey_ne ("start_year".toList) ("end_day".toList) (by decide),
        lookupQs_setKey_ne ("start_year".toList) ("start_min".toList) (by decide),
        lookupQs_setKey_ne ("start_year".toList) ("start_hour".toList) (by decide),
        lookupQs_setKey_self]
  · unfold overwriteParams
    rw [lookupQs_setKey_ne ("start_hour".toList) ("output".toList) (by decide),
        lookupQs_setKey_ne ("start_hour".toList) ("end_min".toList) (by decide),
        lookupQs_setKey_ne ("start_hour".toList) ("end_hour".toList) (by decide),
        lookupQs_setKey_ne ("start_hour".toList) ("end_year".toList) (by decide),
        lookupQs_setKey_ne ("start_hour".toList) ("end_month".toList) (by decide),
        lookupQs_setKey_ne ("start_hour".toList) ("end_day".toList) (by decide),
        lookupQs_setKey_ne ("start_hour".toList) ("start_min".toList) (by decide),
        lookupQs_setKey_self]
  · unfold overwriteParams
    rw [lookupQs_setKey_ne ("start_min".toList) ("output".toList) (by decide),
        lookupQs_setKey_ne ("start_min".toList) ("end_min".toList) (by decide),
        lookupQs_setKey_ne ("start_min".toList) ("end_hour".toList) (by decide),
        lookupQs_setKey_ne ("start_min".toList) ("end_year".toList) (by decide),
        lookupQs_setKey_ne ("start_min".toList) ("end_month".toList) (by decide),
        lookupQs_setKey_ne ("start_min".toList) ("end_day".toList) (by decide),
        lookupQs_setKey_self]
  · unfold overwriteParams
    rw [lookupQs_setKey_ne ("end_day".toList) ("output".toList) (by decide),
        lookupQs_setKey_ne ("end_day".toList) ("end_min".toList) (by decide),
        lookupQs_setKey_ne ("end_day".toList) ("end_hour".toList) (by decide),
        lookupQs_setKey_ne ("end_day".toList) ("end_year".toList) (by decide),
        lookupQs_setKey_ne ("end_day".toList) ("end_month".toList) (by decide),
        lookupQs_setKey_self]
  · unfold overwriteParams
    rw [lookupQs_setKey_ne ("end_month".toList) ("output".toList) (by decide),
        lookupQs_setKey_ne ("end_month".toList) ("end_min".toList) (by decide),
        lookupQs_setKey_ne ("end_month".toList) ("end_hour".toList) (by decide),
        lookupQs_setKey_ne ("end_month".toList) ("end_year".toList) (by decide),
        lookupQs_setKey_self]
  · unfold overwriteParams
    rw [lookupQs_setKey_ne ("end_year".toList) ("output".toList) (by decide),
        lookupQs_setKey_ne ("end_year".toList) ("end_min".toList) (by decide),
        lookupQs_setKey_ne ("end_year".toList) ("end_hour".toList) (by decide),
        lookupQs_setKey_self]
  · unfold overwriteParams
    rw [lookupQs_setKey_ne ("end_hour".toList) ("output".toList) (by decide),
        lookupQs_setKey_ne ("end_hour".toList) ("end_min".toList) (by decide),
        lookupQs_setKey_self]
  · unfold overwriteParams
    rw [lookupQs_setKey_ne ("end_min".toList) ("output".toList) (by decide),
        lookupQs_setKey_self]
  · unfold overwriteParams
    rw [lookupQs_setKey_self]

/-- Witness for C3 (amended): with the station-selector parameter as the
unrelated key, the build succeeds and the parameter's parsed value is
preserved. -/
theorem claim_C3_witness :
    lookupQs ("stations[]".toList)
      (overwriteParams (parse_qs ("stations[]=OULU&x=1".toList))
        ("29".toList) ("7".toList) ("2025".toList) ("0".toList) ("0".toList)
        ("29".toList) ("8".toList) ("2025".toList) ("23".toList) ("59".toList)) =
    lookupQs ("stations[]".toList) (parse_qs ("stations[]=OULU&x=1".toList)) :=
  (claim_C3_amended ("stations[]=OULU&x=1".toList) ("2025-07-29".toList)
    ("00:00".toList) ("2025-08-29".toList) ("23:59".toList) ("stations[]".toList)
    ("29".toList) ("7".toList) ("2025".toList) ("0".toList) ("0".toList)
    ("29".toList) ("8".toList) ("2025".toList) ("23".toList) ("59".toList)
    rfl rfl (by decide)).2.1


end Nmdb
